import Mathlib

/-
  Verification development for editor/attribute_get.go: the dotted-address
  attribute resolver over an hclwrite document tree.

  The data model (Body, Block, Attribute, Token) is the shallow embedding of
  the hclwrite document abstraction the code consumes; the functions
  findLongestMatchingBlocks, findAttribute, longestMatchingLabels,
  allMatchingBlocksByType, getAttributeValueAsString, attributeGetFilter and
  attributeGetSink are translated from the Go source.  Go string helpers
  (strings.Split on ".", strings.Join with ".", strings.TrimSpace) are
  embedded as splitAddress, joinDot and trimSpace with the same semantics,
  written by structural recursion on character lists so that the kernel can
  evaluate them on concrete inputs.
-/

set_option maxHeartbeats 1000000

/-- Token kinds that getAttributeValueAsString distinguishes: the assignment
delimiter (hclsyntax.TokenEqual), comments (hclsyntax.TokenComment), and
everything else. -/
inductive TokenType where
  | equal
  | comment
  | other
  deriving DecidableEq

/-- Models hclwrite.Token: a token type, the number of spaces rendered before
the token (SpacesBefore), and its literal bytes. -/
structure Token where
  type : TokenType
  spacesBefore : Nat
  text : String
  deriving DecidableEq

/-- Models hclwrite.Attribute: its name and its full token stream, as returned
by attr.BuildTokens(nil) / attr.Expr().BuildTokens(nil) in the Go code (the
stream that is scanned for the TokenEqual delimiter). -/
structure Attribute where
  name : String
  tokens : List Token
  deriving DecidableEq

mutual
/-- Models hclwrite.Body: attributes and nested blocks in source order. -/
inductive Body where
  | mk (attributes : List Attribute) (blocks : List Block) : Body

/-- Models hclwrite.Block: a type name, an ordered label list, and a body. -/
inductive Block where
  | mk (type : String) (labels : List String) (body : Body) : Block
end

def Body.attributes : Body → List Attribute
  | .mk as _ => as

def Body.blocks : Body → List Block
  | .mk _ bs => bs

def Block.type : Block → String
  | .mk t _ _ => t

def Block.labels : Block → List String
  | .mk _ ls _ => ls

def Block.body : Block → Body
  | .mk _ _ b => b

/-- Models hclwrite.Body.GetAttribute: the first attribute with the given
name in source order, or none. -/
def Body.getAttribute (b : Body) (name : String) : Option Attribute :=
  b.attributes.find? (fun a => a.name == name)

/-- Character-level worker for splitAddress: splits the remaining characters
at every dot, with acc holding the (reversed) characters of the current
segment. -/
def splitOnDotChars : List Char → List Char → List String
  | [], acc => [String.mk acc.reverse]
  | c :: cs, acc =>
    if c = '.' then String.mk acc.reverse :: splitOnDotChars cs []
    else splitOnDotChars cs (c :: acc)

/-- Models Go strings.Split(s, "."): splits around every dot, keeping empty
segments; the empty string yields the one-element list [""]. -/
def splitAddress (s : String) : List String :=
  splitOnDotChars s.data []

/-- Models Go strings.Join(l, "."). -/
def joinDot : List String → String
  | [] => ""
  | [s] => s
  | s :: rest => s ++ "." ++ joinDot rest

/-- Models Go strings.TrimSpace: drops leading and trailing whitespace. -/
def trimSpace (s : String) : String :=
  String.mk (((s.data.dropWhile Char.isWhitespace).reverse.dropWhile
    Char.isWhitespace).reverse)

/-- Models hclwrite.Tokens.Bytes: each token renders as SpacesBefore space
characters followed by its literal bytes. -/
def tokensBytes (ts : List Token) : String :=
  ts.foldl (fun acc t => acc ++ String.mk (List.replicate t.spacesBefore ' ') ++ t.text) ""

/-- longestMatchingLabels from editor/attribute_get.go: walks both lists from
index 0 and accumulates labels while they agree with the address segments,
returning the accumulated part at the first mismatch or when either list is
exhausted.  (The Go parameter named after the accumulated part is `segs`
here.) -/
def longestMatchingLabels : List String → List String → List String
  | _, [] => []
  | [], _ :: _ => []
  | l :: ls, s :: ss => if s ≠ l then [] else l :: longestMatchingLabels ls ss

/-- Loop of allMatchingBlocksByType: keeps the blocks whose type equals
typeName, in order. -/
def matchingByType (typeName : String) : List Block → List Block
  | [] => []
  | block :: bs =>
    if typeName == block.type then block :: matchingByType typeName bs
    else matchingByType typeName bs

/-- allMatchingBlocksByType from editor/attribute_get.go: all direct child
blocks of the body with the given type name, in document order. -/
def allMatchingBlocksByType (b : Body) (typeName : String) : List Block :=
  matchingByType typeName b.blocks

theorem sizeOf_matchingByType (t : String) (l : List Block) :
    sizeOf (matchingByType t l) ≤ sizeOf l := by
  induction l with
  | nil => simp [matchingByType]
  | cons b bs ih =>
    simp only [matchingByType]
    split
    · simp only [List.cons.sizeOf_spec]
      omega
    · simp only [List.cons.sizeOf_spec]
      omega

theorem sizeOf_body_blocks_lt (b : Body) : sizeOf b.blocks < sizeOf b := by
  cases b with
  | mk as bs => simp [Body.blocks]

theorem sizeOf_block_body_lt (b : Block) : sizeOf b.body < sizeOf b := by
  cases b with
  | mk t ls bd => simp [Block.body]

theorem sizeOf_block_eq (b : Block) :
    sizeOf b = 1 + sizeOf b.type + sizeOf b.labels + sizeOf b.body := by
  cases b with
  | mk t ls bd => simp [Block.type, Block.labels, Block.body]

mutual
/-- findLongestMatchingBlocks from editor/attribute_get.go: resolves a block
address against a body.  An empty address is an error; the first segment is
the block type; a single-segment address returns all same-typed blocks; a
longer address is matched per candidate by processCandidates. -/
def findLongestMatchingBlocks (body : Body) (address : String) :
    Except String (List Block) :=
  if address.length = 0 then
    .error "failed to parse address. address is empty"
  else
    let a := splitAddress address
    let typeName := a.headD ""
    let blocks := allMatchingBlocksByType body typeName
    if a.length = 1 then
      .ok blocks
    else
      processCandidates a blocks
termination_by sizeOf body
decreasing_by
  calc sizeOf (allMatchingBlocksByType body ((splitAddress address).headD ""))
      ≤ sizeOf body.blocks := sizeOf_matchingByType _ _
    _ < sizeOf body := sizeOf_body_blocks_lt body

/-- The candidate loop of findLongestMatchingBlocks (lines 128-151 of
editor/attribute_get.go): for each candidate block, consume its labels from
the address remainder; a block with partially matching labels is skipped; a
block with leftover address segments or no labels recurses into its body
with the joined remaining segments; otherwise the block is a full match. -/
def processCandidates (a : List String) (blocks : List Block) :
    Except String (List Block) :=
  match blocks with
  | [] => .ok []
  | b :: rest =>
    let labels := b.labels
    let matchedlabels := longestMatchingLabels labels (a.drop 1)
    if matchedlabels.length < labels.length then
      processCandidates a rest
    else if matchedlabels.length < a.length - 1 ∨ labels.length = 0 then
      match findLongestMatchingBlocks b.body
          (joinDot (a.drop (1 + matchedlabels.length))) with
      | .error e => .error e
      | .ok nested =>
        match processCandidates a rest with
        | .error e => .error e
        | .ok ms => .ok (nested ++ ms)
    else
      match processCandidates a rest with
      | .error e => .error e
      | .ok ms => .ok (b :: ms)
termination_by sizeOf blocks
decreasing_by
  all_goals
    simp only [List.cons.sizeOf_spec, sizeOf_block_eq]
    omega
end

/-- The scan loop of findAttribute over the matched blocks: the first
(attribute, owning body) pair whose body has the attribute name. -/
def findFirstAttribute (attrName : String) : List Block → Option (Attribute × Body)
  | [] => none
  | b :: rest =>
    match b.body.getAttribute attrName with
    | some attr => some (attr, b.body)
    | none => findFirstAttribute attrName rest

/-- findAttribute from editor/attribute_get.go: empty address is an error; a
dotless address is looked up directly in the body; otherwise the last
segment is the attribute name, the rest the block address, and the first
matched block carrying the attribute wins; no match is (none, none) with no
error. -/
def findAttribute (body : Body) (address : String) :
    Except String (Option Attribute × Option Body) :=
  if address.length = 0 then
    .error "failed to parse address. address is empty"
  else
    let a := splitAddress address
    if a.length = 1 then
      .ok (body.getAttribute (a.headD ""), some body)
    else
      let attrName := a.getLastD ""
      let blockAddr := joinDot a.dropLast
      match findLongestMatchingBlocks body blockAddr with
      | .error e => .error e
      | .ok blocks =>
        if blocks.length = 0 then
          .ok (none, none)
        else
          match findFirstAttribute attrName blocks with
          | some (attr, bd) => .ok (some attr, some bd)
          | none => .ok (none, none)

/-- Scan of getAttributeValueAsString for the TokenEqual delimiter (the Go
index loop): none when no delimiter exists, otherwise the tokens after the
first delimiter. -/
def dropUntilEqual : List Token → Option (List Token)
  | [] => none
  | t :: ts => if t.type == TokenType.equal then some ts else dropUntilEqual ts

/-- Collection loop of getAttributeValueAsString: tokens up to (excluding)
the first comment token. -/
def takeUntilComment : List Token → List Token
  | [] => []
  | t :: ts => if t.type == TokenType.comment then [] else t :: takeUntilComment ts

/-- getAttributeValueAsString from editor/attribute_get.go: find the
TokenEqual delimiter (error when absent; the Go error message also formats
the attribute itself), then render the following tokens up to the first
comment and trim surrounding whitespace. -/
def getAttributeValueAsString (attr : Attribute) : Except String String :=
  match dropUntilEqual attr.tokens with
  | none => .error "failed to find TokenEqual"
  | some rest => .ok (trimSpace (tokensBytes (takeUntilComment rest)))

/-- attributeGet.Filter from editor/attribute_get.go: errors propagate; no
match yields a new empty file; a match yields a file whose body holds one
attribute named by the full address string, carrying the matched
attribute's tokens (SetAttributeRaw of attr.BuildTokens(nil)). -/
def attributeGetFilter (address : String) (inFile : Body) : Except String Body :=
  match findAttribute inFile address with
  | .error e => .error e
  | .ok (attr?, _) =>
    match attr? with
    | none => .ok (Body.mk [] [])
    | some attr => .ok (Body.mk [Attribute.mk address attr.tokens] [])

/-- attributeGet.Sink from editor/attribute_get.go: look the attribute up by
the full address string in the filtered file; absent means empty output and
no error; present means the raw value followed by a newline. -/
def attributeGetSink (address : String) (inFile : Body) : Except String String :=
  match inFile.getAttribute address with
  | none => .ok ""
  | some attr =>
    match getAttributeValueAsString attr with
    | .error e => .error e
    | .ok out => .ok (out ++ "\n")

/-- Concrete documents used by the scenario parts of the claims. -/
def amiAttr : Attribute :=
  Attribute.mk "ami"
    [Token.mk TokenType.other 0 "ami", Token.mk TokenType.equal 1 "=",
     Token.mk TokenType.other 1 "\"x\""]

def fooBody : Body := Body.mk [amiAttr] []

def resourceBlock : Block := Block.mk "resource" ["aws_instance", "foo"] fooBody

/-- The document resource "aws_instance" "foo" { ami = "x" }. -/
def exDoc1 : Body := Body.mk [] [resourceBlock]

def bAttr1 : Attribute :=
  Attribute.mk "b"
    [Token.mk TokenType.other 0 "b", Token.mk TokenType.equal 1 "=",
     Token.mk TokenType.other 1 "\"1\""]

def bAttr2 : Attribute :=
  Attribute.mk "b"
    [Token.mk TokenType.other 0 "b", Token.mk TokenType.equal 1 "=",
     Token.mk TokenType.other 1 "\"2\""]

def aBody1 : Body := Body.mk [bAttr1] []

def aBody2 : Body := Body.mk [bAttr2] []

def aBlock1 : Block := Block.mk "a" [] aBody1

def aBlock2 : Block := Block.mk "a" [] aBody2

/-- The document a { b = "1" } a { b = "2" }. -/
def exDoc2 : Body := Body.mk [] [aBlock1, aBlock2]

/-- An attribute whose source text is name = "value" # comment. -/
def exNameAttr : Attribute :=
  Attribute.mk "name"
    [Token.mk TokenType.other 0 "name", Token.mk TokenType.equal 1 "=",
     Token.mk TokenType.other 1 "\"value\"", Token.mk TokenType.comment 1 "# comment"]

theorem string_mk_data (s : String) : String.mk s.data = s := rfl

theorem string_length_eq_zero_iff (s : String) : s.length = 0 ↔ s = "" := by
  cases s with
  | mk d =>
    constructor
    · intro h
      have hd : d = [] := List.length_eq_zero.mp h
      subst hd
      rfl
    · intro h
      rw [h]
      rfl

theorem data_append (s t : String) : (s ++ t).data = s.data ++ t.data := rfl

theorem splitOnDotChars_no_dot (cs : List Char) (acc : List Char)
    (h : '.' ∉ cs) :
    splitOnDotChars cs acc = [String.mk (acc.reverse ++ cs)] := by
  induction cs generalizing acc with
  | nil => simp [splitOnDotChars]
  | cons c cs ih =>
    have hc : ¬ c = '.' := fun e => h (by simp [e])
    have hcs : '.' ∉ cs := fun m => h (List.mem_cons_of_mem _ m)
    simp only [splitOnDotChars]
    rw [if_neg hc, ih (c :: acc) hcs]
    simp

theorem splitAddress_no_dot (s : String) (h : '.' ∉ s.data) :
    splitAddress s = [s] := by
  unfold splitAddress
  rw [splitOnDotChars_no_dot _ _ h]
  simp [string_mk_data]

theorem splitOnDotChars_append_dot (xs ys : List Char) (acc : List Char)
    (h : '.' ∉ xs) :
    splitOnDotChars (xs ++ '.' :: ys) acc =
      String.mk (acc.reverse ++ xs) :: splitOnDotChars ys [] := by
  induction xs generalizing acc with
  | nil => simp [splitOnDotChars]
  | cons x xs ih =>
    have hx : ¬ x = '.' := fun e => h (by simp [e])
    have hxs : '.' ∉ xs := fun m => h (List.mem_cons_of_mem _ m)
    simp only [List.cons_append, splitOnDotChars, List.append_eq]
    rw [if_neg hx, ih (x :: acc) hxs]
    simp

theorem splitAddress_joinDot (segs : List String) (hne : segs ≠ [])
    (h : ∀ s ∈ segs, '.' ∉ s.data) :
    splitAddress (joinDot segs) = segs := by
  induction segs with
  | nil => exact absurd rfl hne
  | cons s rest ih =>
    cases rest with
    | nil => simpa [joinDot] using splitAddress_no_dot s (h s (by simp))
    | cons s2 rest2 =>
      have hjoin : joinDot (s :: s2 :: rest2) = s ++ "." ++ joinDot (s2 :: rest2) := by
        simp [joinDot]
      have hdata : (s ++ "." ++ joinDot (s2 :: rest2)).data =
          s.data ++ '.' :: (joinDot (s2 :: rest2)).data := by
        rw [data_append, data_append, List.append_assoc]
        rfl
      have htail : splitAddress (joinDot (s2 :: rest2)) = s2 :: rest2 :=
        ih (by simp) (fun x hx => h x (by simp [hx]))
      unfold splitAddress at htail ⊢
      rw [hjoin, hdata, splitOnDotChars_append_dot _ _ _ (h s (by simp))]
      rw [htail]
      simp [string_mk_data]

theorem matchingByType_eq_filter (t : String) (l : List Block) :
    matchingByType t l = l.filter (fun b => t == b.type) := by
  induction l with
  | nil => simp [matchingByType]
  | cons b bs ih =>
    simp only [matchingByType, List.filter_cons]
    by_cases h : t == b.type
    · rw [if_pos h, ih]
      simp [h]
    · rw [if_neg h, ih]
      simp [h]

theorem findFirstAttribute_eq_findSome (n : String) (bs : List Block) :
    findFirstAttribute n bs =
      bs.findSome? (fun b => (b.body.getAttribute n).map (fun attr => (attr, b.body))) := by
  induction bs with
  | nil => simp [findFirstAttribute]
  | cons b rest ih =>
    simp only [findFirstAttribute, List.findSome?_cons]
    cases h : b.body.getAttribute n with
    | none => simp [h, ih]
    | some attr => simp [h]

theorem takeUntilComment_eq_takeWhile (ts : List Token) :
    takeUntilComment ts = ts.takeWhile (fun t => !(t.type == TokenType.comment)) := by
  induction ts with
  | nil => simp [takeUntilComment]
  | cons t ts ih =>
    simp only [takeUntilComment, List.takeWhile_cons]
    by_cases h : t.type = TokenType.comment
    · simp [h]
    · simp [h, ih]

theorem dropUntilEqual_eq_none (ts : List Token)
    (h : ∀ t ∈ ts, t.type ≠ TokenType.equal) : dropUntilEqual ts = none := by
  induction ts with
  | nil => rfl
  | cons t ts ih =>
    have ht : ¬ (t.type == TokenType.equal) = true := by
      simp [h t (by simp)]
    simp only [dropUntilEqual]
    rw [if_neg ht]
    exact ih (fun u hu => h u (by simp [hu]))

theorem dropUntilEqual_append (pre : List Token) (teq : Token) (post : List Token)
    (h : ∀ u ∈ pre, u.type ≠ TokenType.equal) (heq : teq.type = TokenType.equal) :
    dropUntilEqual (pre ++ teq :: post) = some post := by
  induction pre with
  | nil =>
    simp only [List.nil_append, dropUntilEqual]
    rw [if_pos (by simp [heq])]
  | cons u pre ih =>
    have hu : ¬ (u.type == TokenType.equal) = true := by
      simp [h u (by simp)]
    simp only [List.cons_append, dropUntilEqual]
    rw [if_neg hu]
    exact ih (fun v hv => h v (by simp [hv]))

theorem longestMatchingLabels_eq_zip (ls : List String) :
    ∀ (ss : List String),
      longestMatchingLabels ls ss =
        ((ls.zip ss).takeWhile (fun p => p.1 == p.2)).map Prod.fst := by
  induction ls with
  | nil =>
    intro ss
    cases ss <;> simp [longestMatchingLabels]
  | cons l ls ih =>
    intro ss
    cases ss with
    | nil => simp [longestMatchingLabels]
    | cons s ss =>
      by_cases h : s = l
      · subst h
        simp [longestMatchingLabels, List.takeWhile_cons, ih]
      · have h' : l ≠ s := fun e => h e.symm
        simp [longestMatchingLabels, List.takeWhile_cons, h, h']

theorem longestMatchingLabels_common (ls : List String) :
    ∀ (ss : List String),
      longestMatchingLabels ls ss <+: ls ∧ longestMatchingLabels ls ss <+: ss := by
  induction ls with
  | nil =>
    intro ss
    cases ss with
    | nil =>
      exact ⟨⟨[], by simp [longestMatchingLabels]⟩, ⟨[], by simp [longestMatchingLabels]⟩⟩
    | cons s ss =>
      exact ⟨⟨[], by simp [longestMatchingLabels]⟩,
        ⟨s :: ss, by simp [longestMatchingLabels]⟩⟩
  | cons l ls ih =>
    intro ss
    cases ss with
    | nil =>
      exact ⟨⟨l :: ls, by simp [longestMatchingLabels]⟩,
        ⟨[], by simp [longestMatchingLabels]⟩⟩
    | cons s ss =>
      by_cases h : s = l
      · subst h
        obtain ⟨⟨t1, h1⟩, ⟨t2, h2⟩⟩ := ih ss
        refine ⟨⟨t1, ?_⟩, ⟨t2, ?_⟩⟩
        · simp [longestMatchingLabels, h1]
        · simp [longestMatchingLabels, h2]
      · refine ⟨⟨l :: ls, ?_⟩, ⟨s :: ss, ?_⟩⟩ <;> simp [longestMatchingLabels, h]

theorem longestMatchingLabels_longest (c : List String) :
    ∀ (ls ss : List String), c <+: ls → c <+: ss →
      c <+: longestMatchingLabels ls ss := by
  induction c with
  | nil =>
    intro ls ss _ _
    exact ⟨longestMatchingLabels ls ss, by simp⟩
  | cons x c ih =>
    intro ls ss h1 h2
    obtain ⟨t1, ht1⟩ := h1
    obtain ⟨t2, ht2⟩ := h2
    subst ht1
    subst ht2
    have hrec := ih (c ++ t1) (c ++ t2) ⟨t1, rfl⟩ ⟨t2, rfl⟩
    obtain ⟨t, ht⟩ := hrec
    refine ⟨t, ?_⟩
    simp [longestMatchingLabels, ht]

/-- C8: longestMatchingLabels is the pure longest-common-prefix computation:
it equals the element-wise zip-and-take-while-equal scan (stopping at
exhaustion of either list or the first mismatch), its result is a common
prefix of the label list and the segment list, it is the longest such common
part, and it is empty when the label list is empty or the first elements
already differ. -/
theorem longestMatchingLabels_spec :
    (∀ (ls ss : List String),
      longestMatchingLabels ls ss =
        ((ls.zip ss).takeWhile (fun p => p.1 == p.2)).map Prod.fst) ∧
    (∀ (ls ss : List String),
      longestMatchingLabels ls ss <+: ls ∧ longestMatchingLabels ls ss <+: ss) ∧
    (∀ (c ls ss : List String), c <+: ls → c <+: ss →
      c <+: longestMatchingLabels ls ss) ∧
    (∀ (ss : List String), longestMatchingLabels [] ss = []) ∧
    (∀ (l : String) (ls : List String) (s : String) (ss : List String),
      l ≠ s → longestMatchingLabels (l :: ls) (s :: ss) = []) := by
  refine ⟨longestMatchingLabels_eq_zip, longestMatchingLabels_common,
    fun c => longestMatchingLabels_longest c, ?_, ?_⟩
  · intro ss
    cases ss <;> simp [longestMatchingLabels]
  · intro l ls s ss h
    have h' : s ≠ l := fun e => h e.symm
    simp [longestMatchingLabels, h']

/-- Witness for C8 at concrete inputs: mismatching first elements yield the
empty result. -/
theorem longestMatchingLabels_spec_witness :
    longestMatchingLabels ["a"] ["b"] = [] :=
  longestMatchingLabels_spec.2.2.2.2 "a" [] "b" [] (by decide)

/-- C2: a candidate block with a non-empty label list whose matched label
part is strictly shorter than its labels is discarded outright by the
candidate loop: it contributes nothing and its body is never searched (the
body bd below is arbitrary); in particular a block with labels x, y against
remainder x, z, attr is dropped. -/
theorem findLongestMatchingBlocks_label_discard :
    (∀ (a : List String) (b : Block) (rest : List Block),
      b.labels ≠ [] →
      (longestMatchingLabels b.labels (a.drop 1)).length < b.labels.length →
      processCandidates a (b :: rest) = processCandidates a rest) ∧
    (∀ (atr : String) (bd : Body) (rest : List Block),
      processCandidates ["t", "x", "z", atr] (Block.mk "t" ["x", "y"] bd :: rest) =
        processCandidates ["t", "x", "z", atr] rest) := by
  constructor
  · intro a b rest hne hlt
    simp only [processCandidates]
    rw [if_pos hlt]
  · intro atr bd rest
    simp [processCandidates, Block.labels, longestMatchingLabels]

/-- Witness for C2: the labeled block is dropped at a concrete input. -/
theorem findLongestMatchingBlocks_label_discard_witness :
    processCandidates ["t", "x", "z", "w"]
        [Block.mk "t" ["x", "y"] (Body.mk [] [])] =
      processCandidates ["t", "x", "z", "w"] [] :=
  findLongestMatchingBlocks_label_discard.1
    ["t", "x", "z", "w"] (Block.mk "t" ["x", "y"] (Body.mk [] [])) []
    (by decide) (by decide)

/-- C1: a candidate block with at least one label, all of whose labels are
matched and whose labels exactly consume the remaining address segments, is
appended itself as a full match by the candidate loop, without any recursion
into its body; and in the scenario document resource "aws_instance" "foo"
{ ami = "x" } with address resource.aws_instance.foo.ami, the block matches
directly and findAttribute yields the ami attribute (raw value "x" in
quotes). -/
theorem findLongestMatchingBlocks_full_label_match :
    (∀ (a : List String) (b : Block) (rest : List Block),
      b.labels ≠ [] →
      longestMatchingLabels b.labels (a.drop 1) = b.labels →
      b.labels.length = (a.drop 1).length →
      processCandidates a (b :: rest) =
        (processCandidates a rest).map (fun ms => b :: ms)) ∧
    (findAttribute exDoc1 "resource.aws_instance.foo.ami" =
      .ok (some amiAttr, some fooBody)) ∧
    (getAttributeValueAsString amiAttr = .ok "\"x\"") := by
  refine ⟨?_, ?_, ?_⟩
  · intro a b rest hne hfull hlen
    have hd : (a.drop 1).length = a.length - 1 := by simp
    have hz : b.labels.length ≠ 0 := by
      intro h0
      exact hne (List.length_eq_zero.mp h0)
    have hcond : ¬ (b.labels.length < a.length - 1 ∨ b.labels.length = 0) := by
      rw [← hd]
      omega
    cases hr : processCandidates a rest with
    | error e =>
      simp only [processCandidates, hfull, hr]
      rw [if_neg (lt_irrefl _), if_neg hcond]
      simp [Except.map]
    | ok ms =>
      simp only [processCandidates, hfull, hr]
      rw [if_neg (lt_irrefl _), if_neg hcond]
      simp [Except.map]
  · simp [findAttribute, findLongestMatchingBlocks, processCandidates, splitAddress,
      splitOnDotChars, joinDot, allMatchingBlocksByType, matchingByType,
      longestMatchingLabels, findFirstAttribute, Body.getAttribute, Body.attributes,
      Body.blocks, Block.type, Block.labels, Block.body, exDoc1, resourceBlock,
      fooBody, amiAttr, List.find?]
    rfl
  · rfl

/-- Witness for C1: the fully label-matched block is appended directly at a
concrete input. -/
theorem findLongestMatchingBlocks_full_label_match_witness :
    processCandidates ["t", "l1", "l2"]
        [Block.mk "t" ["l1", "l2"] (Body.mk [] [])] =
      (processCandidates ["t", "l1", "l2"] ([] : List Block)).map
        (fun ms => Block.mk "t" ["l1", "l2"] (Body.mk [] []) :: ms) :=
  findLongestMatchingBlocks_full_label_match.1
    ["t", "l1", "l2"] (Block.mk "t" ["l1", "l2"] (Body.mk [] [])) []
    (by decide) (by decide) (by decide)

/-- C3: a candidate block that is not discarded and has fewer matched labels
than remaining segments, or has no labels, makes the loop recurse into its
body with the joined segments remaining after the matched labels, appending
the nested results in order before the rest of the loop's output; joining
and re-splitting leaves dot-free segments unchanged; and a block with no
labels and remainder child, attr recurses with exactly the address
child.attr. -/
theorem findLongestMatchingBlocks_nested_recursion :
    (∀ (a : List String) (b : Block) (rest : List Block),
      ¬ (longestMatchingLabels b.labels (a.drop 1)).length < b.labels.length →
      ((longestMatchingLabels b.labels (a.drop 1)).length < (a.drop 1).length ∨
        b.labels = []) →
      processCandidates a (b :: rest) =
        match findLongestMatchingBlocks b.body
            (joinDot ((a.drop 1).drop
              (longestMatchingLabels b.labels (a.drop 1)).length)) with
        | .error e => .error e
        | .ok nested =>
          (processCandidates a rest).map (fun ms => nested ++ ms)) ∧
    (∀ (segs : List String), segs ≠ [] → (∀ s ∈ segs, '.' ∉ s.data) →
      splitAddress (joinDot segs) = segs) ∧
    (∀ (ty c atr : String) (bd : Body) (rest : List Block),
      processCandidates [ty, c, atr] (Block.mk ty [] bd :: rest) =
        match findLongestMatchingBlocks bd (c ++ "." ++ atr) with
        | .error e => .error e
        | .ok nested =>
          (processCandidates [ty, c, atr] rest).map (fun ms => nested ++ ms)) := by
  refine ⟨?_, splitAddress_joinDot, ?_⟩
  · intro a b rest hnot hcase
    have hd : (a.drop 1).length = a.length - 1 := by simp
    have hcond : (longestMatchingLabels b.labels (a.drop 1)).length < a.length - 1 ∨
        b.labels.length = 0 := by
      rcases hcase with h | h
      · left
        rw [← hd]
        exact h
      · right
        simp [h]
    have hk : (a.drop 1).drop (longestMatchingLabels b.labels (a.drop 1)).length =
        a.drop (1 + (longestMatchingLabels b.labels (a.drop 1)).length) := by
      rw [List.drop_drop, Nat.add_comm]
    rw [hk]
    cases hf : findLongestMatchingBlocks b.body
        (joinDot (a.drop (1 + (longestMatchingLabels b.labels (a.drop 1)).length))) with
    | error e =>
      simp only [processCandidates]
      rw [if_neg hnot, if_pos hcond, hf]
    | ok nested =>
      cases hr : processCandidates a rest with
      | error e =>
        simp only [processCandidates]
        rw [if_neg hnot, if_pos hcond, hf, hr]
        simp [Except.map]
      | ok ms =>
        simp only [processCandidates]
        rw [if_neg hnot, if_pos hcond, hf, hr]
        simp [Except.map]
  · intro ty c atr bd rest
    simp [processCandidates, Block.labels, Block.body, longestMatchingLabels, joinDot]
    cases findLongestMatchingBlocks bd (c ++ "." ++ atr) with
    | error e => rfl
    | ok nested =>
      cases processCandidates [ty, c, atr] rest with
      | error e => rfl
      | ok ms => rfl

/-- Witness for C3: a zero-label block recurses into its body at a concrete
input. -/
theorem findLongestMatchingBlocks_nested_recursion_witness :
    processCandidates ["t", "child", "x"]
        [Block.mk "t" [] (Body.mk [] [])] =
      match findLongestMatchingBlocks (Body.mk [] [])
          (joinDot ((["t", "child", "x"].drop 1).drop
            (longestMatchingLabels (Block.mk "t" [] (Body.mk [] [])).labels
              (["t", "child", "x"].drop 1)).length)) with
      | .error e => .error e
      | .ok nested =>
        (processCandidates ["t", "child", "x"] []).map (fun ms => nested ++ ms) :=
  findLongestMatchingBlocks_nested_recursion.1
    ["t", "child", "x"] (Block.mk "t" [] (Body.mk [] [])) []
    (by decide) (by decide)

theorem longestMatchingLabels_nil (ss : List String) :
    longestMatchingLabels [] ss = [] := by
  cases ss <;> simp [longestMatchingLabels]

theorem findLongestMatchingBlocks_empty_address (body : Body) :
    findLongestMatchingBlocks body "" =
      .error "failed to parse address. address is empty" := by
  simp only [findLongestMatchingBlocks]
  rw [if_pos (show ("" : String).length = 0 by decide)]

/-- C4: a single-segment block address (no dot, non-empty) resolves to
exactly the direct child blocks of the body whose type equals the segment,
in document order, labels ignored and duplicates included. -/
theorem findLongestMatchingBlocks_single_segment :
    ∀ (body : Body) (address : String),
      address ≠ "" → '.' ∉ address.data →
      findLongestMatchingBlocks body address =
        .ok (body.blocks.filter (fun b => address == b.type)) := by
  intro body address hne hdot
  have hlen : ¬ address.length = 0 :=
    fun h => hne ((string_length_eq_zero_iff address).mp h)
  have hsplit : splitAddress address = [address] := splitAddress_no_dot address hdot
  simp only [findLongestMatchingBlocks, hsplit]
  rw [if_neg hlen]
  simp [allMatchingBlocksByType, matchingByType_eq_filter]

/-- Witness for C4: two same-typed blocks with different labels are both
returned, the differently typed one is not. -/
theorem findLongestMatchingBlocks_single_segment_witness :
    findLongestMatchingBlocks
        (Body.mk [] [Block.mk "a" ["l1"] (Body.mk [] []),
          Block.mk "b" [] (Body.mk [] []),
          Block.mk "a" ["l2"] (Body.mk [] [])]) "a" =
      .ok ((Body.mk [] [Block.mk "a" ["l1"] (Body.mk [] []),
          Block.mk "b" [] (Body.mk [] []),
          Block.mk "a" ["l2"] (Body.mk [] [])]).blocks.filter
        (fun b => "a" == b.type)) :=
  findLongestMatchingBlocks_single_segment _ "a" (by decide) (by decide)

/-- C5: a dotless non-empty address is looked up directly in the body:
findAttribute returns the body's own attribute of that name (possibly
absent, with no error) together with the body, and traverses no blocks. -/
theorem findAttribute_no_dot :
    ∀ (body : Body) (address : String),
      address ≠ "" → '.' ∉ address.data →
      findAttribute body address = .ok (body.getAttribute address, some body) := by
  intro body address hne hdot
  have hlen : ¬ address.length = 0 :=
    fun h => hne ((string_length_eq_zero_iff address).mp h)
  have hsplit : splitAddress address = [address] := splitAddress_no_dot address hdot
  simp only [findAttribute, hsplit]
  rw [if_neg hlen]
  simp

/-- Witness for C5: an absent attribute yields none and the body itself,
with no error. -/
theorem findAttribute_no_dot_witness :
    findAttribute (Body.mk [] []) "x" =
      .ok ((Body.mk [] []).getAttribute "x", some (Body.mk [] [])) :=
  findAttribute_no_dot (Body.mk [] []) "x" (by decide) (by decide)

theorem resolver_errors_are_empty_address :
    (∀ (body : Body) (address : String) (e : String),
      findLongestMatchingBlocks body address = .error e →
      e = "failed to parse address. address is empty") ∧
    (∀ (a : List String) (blocks : List Block) (e : String),
      processCandidates a blocks = .error e →
      e = "failed to parse address. address is empty") := by
  have key : ∀ n : Nat,
      (∀ (body : Body) (address : String) (e : String), sizeOf body ≤ n →
        findLongestMatchingBlocks body address = .error e →
        e = "failed to parse address. address is empty") ∧
      (∀ (a : List String) (blocks : List Block) (e : String), sizeOf blocks ≤ n →
        processCandidates a blocks = .error e →
        e = "failed to parse address. address is empty") := by
    intro n
    induction n using Nat.strong_induction_on with
    | _ n ih =>
      constructor
      · intro body address e hsz h
        simp only [findLongestMatchingBlocks] at h
        split at h
        · injection h with h2
          exact h2.symm
        · split at h
          · exact absurd h (by simp)
          · have hlt : sizeOf (allMatchingBlocksByType body
                ((splitAddress address).headD "")) < n := by
              have h1 := sizeOf_matchingByType ((splitAddress address).headD "")
                body.blocks
              have h2 := sizeOf_body_blocks_lt body
              simp only [allMatchingBlocksByType]
              omega
            exact (ih _ hlt).2 _ _ e (le_refl _) h
      · intro a blocks e hsz h
        cases blocks with
        | nil => exact absurd h (by simp [processCandidates])
        | cons b rest =>
          have hsz1 : sizeOf rest < n := by
            have := sizeOf_block_eq b
            simp only [List.cons.sizeOf_spec] at hsz
            omega
          have hsz2 : sizeOf b.body < n := by
            have := sizeOf_block_eq b
            simp only [List.cons.sizeOf_spec] at hsz
            omega
          simp only [processCandidates] at h
          split at h
          · exact (ih _ hsz1).2 a rest e (le_refl _) h
          · split at h
            · split at h
              · rename_i heq
                injection h with h2
                rw [h2] at heq
                exact (ih _ hsz2).1 b.body _ e (le_refl _) heq
              · split at h
                · rename_i heq2
                  injection h with h2
                  rw [h2] at heq2
                  exact (ih _ hsz1).2 a rest e (le_refl _) heq2
                · exact absurd h (by simp)
            · split at h
              · rename_i heq2
                injection h with h2
                rw [h2] at heq2
                exact (ih _ hsz1).2 a rest e (le_refl _) heq2
              · exact absurd h (by simp)
  exact ⟨fun body address e h => (key (sizeOf body)).1 body address e (le_refl _) h,
    fun a blocks e h => (key (sizeOf blocks)).2 a blocks e (le_refl _) h⟩

theorem findAttribute_errors_are_empty_address :
    ∀ (body : Body) (address : String) (e : String),
      findAttribute body address = .error e →
      e = "failed to parse address. address is empty" := by
  intro body address e h
  simp only [findAttribute] at h
  split at h
  · injection h with h2
    exact h2.symm
  · split at h
    · exact absurd h (by simp)
    · split at h
      · rename_i heq
        injection h with h2
        rw [h2] at heq
        exact resolver_errors_are_empty_address.1 body _ e heq
      · split at h
        · exact absurd h (by simp)
        · split at h
          · exact absurd h (by simp)
          · exact absurd h (by simp)

/-- C7: the empty-address error: findAttribute and findLongestMatchingBlocks
fail on the empty address for every body, before any traversal; and when a
zero-label block's nested search is invoked with an address that has become
empty, the error from the recursive call propagates out of the candidate
loop instead of the block being skipped (concretely for the document with
one zero-label block a and address a.); conversely every error either
function can return is the empty-address error. -/
theorem emptyAddressError_spec :
    (∀ body : Body, findAttribute body "" =
      .error "failed to parse address. address is empty") ∧
    (∀ body : Body, findLongestMatchingBlocks body "" =
      .error "failed to parse address. address is empty") ∧
    (∀ (a : List String) (b : Block) (rest : List Block),
      2 ≤ a.length → b.labels = [] → joinDot (a.drop 1) = "" →
      processCandidates a (b :: rest) =
        .error "failed to parse address. address is empty") ∧
    (findLongestMatchingBlocks (Body.mk [] [Block.mk "a" [] (Body.mk [] [])]) "a." =
      .error "failed to parse address. address is empty") ∧
    (∀ (body : Body) (address : String) (e : String),
      findAttribute body address = .error e →
      e = "failed to parse address. address is empty") ∧
    (∀ (body : Body) (address : String) (e : String),
      findLongestMatchingBlocks body address = .error e →
      e = "failed to parse address. address is empty") := by
  refine ⟨?_, findLongestMatchingBlocks_empty_address, ?_, ?_,
    findAttribute_errors_are_empty_address, resolver_errors_are_empty_address.1⟩
  · intro body
    simp only [findAttribute]
    rw [if_pos (show ("" : String).length = 0 by decide)]
  · intro a b rest h2 hlab hjoin
    have hm : longestMatchingLabels b.labels (a.drop 1) = [] := by
      rw [hlab]
      exact longestMatchingLabels_nil _
    have hcond : (longestMatchingLabels b.labels (a.drop 1)).length < a.length - 1 ∨
        b.labels.length = 0 := by
      right
      simp [hlab]
    simp only [processCandidates]
    rw [if_neg (by simp [hm, hlab]), if_pos hcond]
    rw [hm]
    simp only [List.length_nil, Nat.add_zero, hjoin,
      findLongestMatchingBlocks_empty_address]
  · simp [findLongestMatchingBlocks, processCandidates, splitAddress, splitOnDotChars,
      allMatchingBlocksByType, matchingByType, Block.type, Block.labels, Block.body,
      longestMatchingLabels, joinDot]

/-- Witness for C7: the propagation conjunct at a concrete input. -/
theorem emptyAddressError_spec_witness :
    processCandidates ["a", ""] [Block.mk "a" [] (Body.mk [] [])] =
      .error "failed to parse address. address is empty" :=
  emptyAddressError_spec.2.2.1 ["a", ""] (Block.mk "a" [] (Body.mk [] [])) []
    (by decide) (by decide) (by decide)

/-- C9: getAttributeValueAsString fails exactly when no assignment-delimiter
token exists in the attribute's token stream; when the stream decomposes as
non-delimiter tokens, the first delimiter, and a tail, it returns the
rendered text of the tail up to (but excluding) the first comment token,
whitespace-trimmed; and on the attribute written name = "value" # comment
it returns "value" with quotes kept and the comment stripped. -/
theorem getAttributeValueAsString_spec :
    (∀ (attr : Attribute), (∀ t ∈ attr.tokens, t.type ≠ TokenType.equal) →
      getAttributeValueAsString attr = .error "failed to find TokenEqual") ∧
    (∀ (attr : Attribute) (pre : List Token) (teq : Token) (post : List Token),
      attr.tokens = pre ++ teq :: post →
      (∀ u ∈ pre, u.type ≠ TokenType.equal) →
      teq.type = TokenType.equal →
      getAttributeValueAsString attr =
        .ok (trimSpace (tokensBytes
          (post.takeWhile (fun u => !(u.type == TokenType.comment)))))) ∧
    (getAttributeValueAsString exNameAttr = .ok "\"value\"") := by
  refine ⟨?_, ?_, ?_⟩
  · intro attr h
    simp only [getAttributeValueAsString, dropUntilEqual_eq_none attr.tokens h]
  · intro attr pre teq post htok hpre heq
    simp only [getAttributeValueAsString, htok,
      dropUntilEqual_append pre teq post hpre heq, takeUntilComment_eq_takeWhile]
  · rfl

/-- Witness for C9: the decomposition part applied to the concrete
attribute. -/
theorem getAttributeValueAsString_spec_witness :
    getAttributeValueAsString exNameAttr =
      .ok (trimSpace (tokensBytes
        (([Token.mk TokenType.other 1 "\"value\"",
           Token.mk TokenType.comment 1 "# comment"]).takeWhile
          (fun u => !(u.type == TokenType.comment))))) :=
  getAttributeValueAsString_spec.2.1 exNameAttr
    [Token.mk TokenType.other 0 "name"] (Token.mk TokenType.equal 1 "=")
    [Token.mk TokenType.other 1 "\"value\"", Token.mk TokenType.comment 1 "# comment"]
    rfl (by decide) rfl

/-- C10: the filter emits a fresh empty file when findAttribute finds
nothing (without error) and otherwise a file holding exactly one attribute
named by the full dotted address with the matched attribute's tokens; the
sink looks up that same full address and emits nothing (no error) when it
is absent, and the raw value plus a newline when present. -/
theorem attributeGet_filter_sink_spec :
    (∀ (address : String) (body : Body) (ob : Option Body),
      findAttribute body address = .ok (none, ob) →
      attributeGetFilter address body = .ok (Body.mk [] [])) ∧
    (∀ (address : String) (body : Body) (attr : Attribute) (ob : Option Body),
      findAttribute body address = .ok (some attr, ob) →
      attributeGetFilter address body =
        .ok (Body.mk [Attribute.mk address attr.tokens] [])) ∧
    (∀ (address : String) (inFile : Body),
      inFile.getAttribute address = none →
      attributeGetSink address inFile = .ok "") ∧
    (∀ (address : String) (inFile : Body) (attr : Attribute) (v : String),
      inFile.getAttribute address = some attr →
      getAttributeValueAsString attr = .ok v →
      attributeGetSink address inFile = .ok (v ++ "\n")) := by
  refine ⟨?_, ?_, ?_, ?_⟩
  · intro address body ob h
    simp only [attributeGetFilter, h]
  · intro address body attr ob h
    simp only [attributeGetFilter, h]
  · intro address inFile h
    simp only [attributeGetSink, h]
  · intro address inFile attr v h hv
    simp only [attributeGetSink, h, hv]

/-- Witness for C10: the sink emits nothing on an absent attribute. -/
theorem attributeGet_filter_sink_spec_witness :
    attributeGetSink "x" (Body.mk [] []) = .ok "" :=
  attributeGet_filter_sink_spec.2.2.1 "x" (Body.mk [] []) rfl

/-- C6: for a multi-segment address, findAttribute takes the last segment as
the attribute name and the joined preceding segments as the block address,
propagates resolution errors, and otherwise returns the first (attribute,
owning body) pair over the matched blocks in match order whose body has the
attribute, or (none, none) with no error when no block matched or none has
it; in the scenario document a { b = "1" } a { b = "2" } with address a.b,
both blocks match and the first block's b is returned. -/
theorem findAttribute_multi_segment :
    (∀ (body : Body) (address : String),
      2 ≤ (splitAddress address).length →
      findAttribute body address =
        match findLongestMatchingBlocks body
            (joinDot (splitAddress address).dropLast) with
        | .error e => .error e
        | .ok blocks =>
          .ok (match blocks.findSome? (fun b =>
                (b.body.getAttribute ((splitAddress address).getLastD "")).map
                  (fun attr => (attr, b.body))) with
              | some p => (some p.1, some p.2)
              | none => (none, none))) ∧
    (findLongestMatchingBlocks exDoc2 "a" = .ok [aBlock1, aBlock2]) ∧
    (findAttribute exDoc2 "a.b" = .ok (some bAttr1, some aBody1)) := by
  refine ⟨?_, ?_, ?_⟩
  · intro body address h2
    have hne : ¬ address.length = 0 := by
      intro h0
      have he : address = "" := (string_length_eq_zero_iff address).mp h0
      subst he
      simp [splitAddress, splitOnDotChars] at h2
    have hlen1 : ¬ (splitAddress address).length = 1 := by omega
    have haux : ∀ (blocks : List Block),
        (if blocks.length = 0 then
          (Except.ok (none, none) : Except String (Option Attribute × Option Body))
        else
          match findFirstAttribute ((splitAddress address).getLastD "") blocks with
          | some (attr, bd) => .ok (some attr, some bd)
          | none => .ok (none, none)) =
        .ok (match blocks.findSome? (fun b =>
              (b.body.getAttribute ((splitAddress address).getLastD "")).map
                (fun attr => (attr, b.body))) with
            | some p => (some p.1, some p.2)
            | none => (none, none)) := by
      intro blocks
      cases blocks with
      | nil => simp [List.findSome?]
      | cons b bs =>
        rw [if_neg (by simp)]
        rw [findFirstAttribute_eq_findSome]
        cases hz : (b :: bs).findSome? (fun bl =>
            (bl.body.getAttribute ((splitAddress address).getLastD "")).map
              (fun attr => (attr, bl.body))) with
        | none => rfl
        | some p =>
          cases p with
          | mk attr bd => rfl
    simp only [findAttribute]
    rw [if_neg hne, if_neg hlen1]
    cases findLongestMatchingBlocks body
        (joinDot (splitAddress address).dropLast) with
    | error e => rfl
    | ok blocks => exact haux blocks
  · simp [findLongestMatchingBlocks, processCandidates, splitAddress, splitOnDotChars,
      allMatchingBlocksByType, matchingByType, Block.type, Block.labels, Block.body,
      longestMatchingLabels, joinDot, exDoc2, aBlock1, aBlock2, aBody1, aBody2]
    decide
  · simp [findAttribute, findLongestMatchingBlocks, processCandidates, splitAddress,
      splitOnDotChars, joinDot, allMatchingBlocksByType, matchingByType,
      longestMatchingLabels, findFirstAttribute, Body.getAttribute, Body.attributes,
      Body.blocks, Block.type, Block.labels, Block.body, exDoc2, aBlock1, aBlock2,
      aBody1, aBody2, bAttr1, bAttr2, List.find?]
    rfl

/-- Witness for C6: the splitting-and-first-match part applied to the
scenario document and address. -/
theorem findAttribute_multi_segment_witness :
    findAttribute exDoc2 "a.b" =
      match findLongestMatchingBlocks exDoc2
          (joinDot (splitAddress "a.b").dropLast) with
      | .error e => .error e
      | .ok blocks =>
        .ok (match blocks.findSome? (fun b =>
              (b.body.getAttribute ((splitAddress "a.b").getLastD "")).map
                (fun attr => (attr, b.body))) with
            | some p => (some p.1, some p.2)
            | none => (none, none)) :=
  findAttribute_multi_segment.1 exDoc2 "a.b" (by decide)
